import Mathlib

/-!
A verification development for the synchronization core of the sparcd-web
server: the persisted named lock, the TTL-gated snapshot cache, the
orchestrator polling loop, the query filter engine, and the
permission-based collection filtering.

Python sources are shallowly embedded: SQL rows become Lean structures,
timestamps become integers (seconds, as produced by strftime in the code),
database state is passed explicitly, and code that can raise returns
Except. Each definition mirrors one function of the source; interleaving
of concurrent callers is out of scope, every embedded operation runs
sequentially (the database serializes individual statements).
-/

/-! ### Named lock (spd_database/spdsqlite.py, lock_get and lock_release)

The db_locks table keyed by lock name; for a single name the table state
is an optional row. A row absent means the lock was never created; the
value column is the token and is NULL when the lock is free.
-/

/-- One row of the db_locks table: value is the stored token (NULL when
unlocked) and timestamp is the acquisition time in whole seconds. -/
structure LockRow where
  value : Option Int
  timestamp : Option Int
deriving DecidableEq, Repr

/-- The WHERE clause of the conditional UPDATE in lock_get:
value IS NULL OR now - timestamp > max_lock_sec. A NULL timestamp makes
the SQL comparison NULL, which is not true. -/
def lockUpdateCond (r : LockRow) (now maxLockSec : Int) : Bool :=
  r.value.isNone ||
    (match r.timestamp with
     | some ts => decide (now - ts > maxLockSec)
     | none => false)

/-- The UPDATE-or-INSERT step of lock_get: when the row does not exist it
is inserted unconditionally; when it exists, the conditional UPDATE fires
exactly when lockUpdateCond holds. Returns the SQL rowcount together with
the table state after the statement. -/
def db_locks_update (row : Option LockRow) (now lockValue maxLockSec : Int) :
    Nat × Option LockRow :=
  match row with
  | none => (1, some ⟨some lockValue, some now⟩)
  | some r =>
      if lockUpdateCond r now maxLockSec then
        (1, some ⟨some lockValue, some now⟩)
      else
        (0, some r)

/-- The read-back SELECT of lock_get: fetch the stored value column for
the name. Returns none when the row is missing or its value is NULL. -/
def db_locks_select_value (row : Option LockRow) : Option Int :=
  match row with
  | none => none
  | some r => r.value

/-- Whether an acquire attempt can take the lock: the row is absent
(insert path) or the conditional update fires. -/
def lockAcquireCond (row : Option LockRow) (now maxLockSec : Int) : Bool :=
  match row with
  | none => true
  | some r => lockUpdateCond r now maxLockSec

/-- lock_get: run the conditional UPDATE (or INSERT when the row is
absent); when the statement changed a row, re-read the value column and
return the candidate exactly when the value read back equals it; in every
other case return none (not acquired). Returns the result and the table
state after the call. -/
def lock_get (row : Option LockRow) (now lockValue maxLockSec : Int) :
    Option Int × Option LockRow :=
  let step := db_locks_update row now lockValue maxLockSec
  if step.1 > 0 then
    match db_locks_select_value step.2 with
    | some v => (if v = lockValue then some lockValue else none, step.2)
    | none => (none, step.2)
  else
    (none, step.2)

/-- lock_release: UPDATE db_locks SET value=NULL, timestamp=NULL WHERE
name matches AND value equals the token passed by the caller. When the
stored value differs (or is NULL) the statement matches nothing. -/
def lock_release (row : Option LockRow) (value : Int) : Option LockRow :=
  match row with
  | none => none
  | some r => if r.value = some value then some ⟨none, none⟩ else some r

/-! ### Snapshot cache reads (sparcd_db.py get_all_collections and
spd_database/spdsqlite.py get_uploads)

The collections table stores per-collection snapshot rows; the SQL layer
returns for each row the elapsed seconds now - timestamp. The stored JSON
payload is decoded with the standard library parser, which either yields
a value or raises; the parser itself is not part of the repository, so a
payload is embedded as either valid (carrying its decoded text) or
malformed. -/

/-- A stored JSON payload: either it parses to a value or it is
malformed and the standard parser raises on it. -/
inductive JsonText where
  | valid (v : String)
  | malformed
deriving DecidableEq, Repr

/-- The standard JSON parser viewed as a function that can fail. -/
def json_loads : JsonText → Option String
  | .valid v => some v
  | .malformed => none

/-- One row of the collections snapshot table as read back by
get_collections: the collection id, the stored JSON payload, and the
time the row was written (seconds). The SQL query reports the elapsed
age now - fetchedAt. -/
structure CollRow where
  coll_id : String
  json : JsonText
  fetchedAt : Int
deriving DecidableEq, Repr

/-- The list comprehension decoding every stored payload: the whole
decode fails as soon as one payload is malformed. -/
def loads_all : List CollRow → Option (List String)
  | [] => some []
  | r :: rest =>
      match json_loads r.json with
      | none => none
      | some v =>
          match loads_all rest with
          | none => none
          | some vs => some (v :: vs)

/-- get_all_collections: returns none when the row set is empty or when
any row has elapsed age at least timeoutSec; otherwise decodes every
payload, raising (Except.error) when one fails to parse. -/
def get_all_collections (rows : List CollRow) (now timeoutSec : Int) :
    Except String (Option (List String)) :=
  if rows.isEmpty then .ok none
  else if rows.any (fun r => decide (now - r.fetchedAt ≥ timeoutSec)) then .ok none
  else
    match loads_all rows with
    | some vals => .ok (some vals)
    | none => .error "Unable to parse stored collection JSON"

/-- get_uploads: reads the largest elapsed age among the table_timeout
rows for the bucket (ORDER BY elapsed DESC LIMIT 1); when there is no
row, or the largest age is at least timeoutSec, returns none; otherwise
returns the stored upload rows for the bucket. The upload rows are kept
abstract. fetchedAts are the timestamps of the table_timeout rows. -/
def get_uploads (fetchedAts : List Int) (uploadRows : List String)
    (now timeoutSec : Int) : Option (List String) :=
  match (fetchedAts.map (fun ts => now - ts)).max? with
  | none => none
  | some maxElapsed => if maxElapsed ≥ timeoutSec then none else some uploadRows

/-! ### Orchestrator waiting loop (sparcd_collections.py,
__get_loaded_collections, losing branch)

A caller that fails to take the fetch_collection lock polls the snapshot
store with a linearly growing sleep. Real sleeping is modelled by
accumulating the slept seconds as an exact rational; the outcome of the
poll at each attempt is an argument of the embedding. -/

/-- Maximum tries to get collections while waiting (source constant). -/
def MAX_COLL_FETCH_TRIES : Nat := 10

/-- Maximum seconds to wait for collections before giving up (source
constant, 5 minutes). -/
def MAX_COLL_FETCH_WAIT_SEC : ℚ := 5 * 60

/-- Sleep interval base while waiting (source constant): the wait budget
divided by the triangular number of the maximum tries. -/
def COLL_FETCH_WAIT_INTERVAL_SEC : ℚ :=
  MAX_COLL_FETCH_WAIT_SEC /
    ((MAX_COLL_FETCH_TRIES + 1) * (MAX_COLL_FETCH_TRIES : ℚ) / 2)

/-- Total seconds slept by attempts tries+1 .. tries+r, each attempt t
sleeping t * COLL_FETCH_WAIT_INTERVAL_SEC. -/
def sleepSum (tries : Nat) : Nat → ℚ
  | 0 => 0
  | r + 1 =>
      ((tries + 1 : Nat) : ℚ) * COLL_FETCH_WAIT_INTERVAL_SEC + sleepSum (tries + 1) r

/-- The body of the waiting while-loop: with r attempts remaining and
tries attempts already made, sleep (tries+1) * interval, poll, and stop
on a truthy poll result. Returns the final poll value, the total seconds
slept, and the number of polls issued. -/
def wait_go {α : Type} (poll : Nat → Option α) :
    Nat → Nat → ℚ → Nat → Option α × ℚ × Nat
  | 0, _, slept, npolls => (none, slept, npolls)
  | r + 1, tries, slept, npolls =>
      let t := tries + 1
      let slept' := slept + (t : ℚ) * COLL_FETCH_WAIT_INTERVAL_SEC
      match poll t with
      | some v => (some v, slept', npolls + 1)
      | none => wait_go poll r t slept' (npolls + 1)

/-- The waiting branch of __get_loaded_collections: up to
MAX_COLL_FETCH_TRIES polls of the snapshot store, sleeping
attempt * COLL_FETCH_WAIT_INTERVAL_SEC before each poll. -/
def wait_for_collections {α : Type} (poll : Nat → Option α) : Option α × ℚ × Nat :=
  wait_go poll MAX_COLL_FETCH_TRIES 0 0 0

/-! ### Timestamps (query_helpers.py, image timestamp handling)

Image timestamps are parsed with datetime.fromisoformat into wall-clock
fields plus an optional UTC offset (none models a naive value). The
weekday, hour, month and year filters read the wall-clock fields; the
startDate and endDate filters compare instants, which for aware values
is the wall-clock time shifted by the offset. -/

/-- A parsed timestamp: wall-clock calendar fields plus an optional UTC
offset in seconds (none models a naive datetime). -/
structure PyDateTime where
  year : Int
  month : Int
  day : Int
  hour : Int
  minute : Int
  second : Int
  tz : Option Int
deriving DecidableEq, Repr

/-- Default timezone offset in seconds attached to naive image
timestamps (source constant, -7 hours). -/
def DEFAULT_TIMEZONE_OFFSET : Int := -7 * 60 * 60

/-- Days since 1970-01-01 of a calendar date (proleptic Gregorian,
standard days-from-civil computation over integers). -/
def daysFromCivil (y m d : Int) : Int :=
  let y2 := if m ≤ 2 then y - 1 else y
  let era := Int.fdiv y2 400
  let yoe := y2 - era * 400
  let mp := if m > 2 then m - 3 else m + 9
  let doy := (153 * mp + 2) / 5 + d - 1
  let doe := yoe * 365 + yoe / 4 - yoe / 100 + doy
  era * 146097 + doe - 719468

/-- Python datetime.weekday(): Monday is 0, computed from the wall-clock
date (1970-01-01 was a Thursday, weekday 3). -/
def pyWeekday (dt : PyDateTime) : Int :=
  (daysFromCivil dt.year dt.month dt.day + 3) % 7

/-- Wall-clock seconds of a timestamp ignoring its offset. -/
def wallClockSec (dt : PyDateTime) : Int :=
  daysFromCivil dt.year dt.month dt.day * 86400 +
    dt.hour * 3600 + dt.minute * 60 + dt.second

/-- Comparison key of a timestamp: CPython orders two aware datetimes by
UTC instant, the wall-clock value minus the offset. Comparing an aware
value with a naive one raises in CPython; the theorems below only apply
this key under an awareness hypothesis, where the default is never
used. -/
def pyDtKey (dt : PyDateTime) : Int :=
  wallClockSec dt - dt.tz.getD 0

/-- The normalization applied to a parsed image timestamp: a naive value
gets the fixed default offset attached; an aware value is unchanged. -/
def normalize_image_dt (dt : PyDateTime) : PyDateTime :=
  if dt.tz.isNone then { dt with tz := some DEFAULT_TIMEZONE_OFFSET } else dt

/-! ### Query filter engine, image level (query_helpers.py,
filter_uploads lines 59-128)

The filters argument is the tuple built by the route handler: pairs of a
filter name and its payload, embedded as a tagged variant. The image
loop iterates over this tuple in the order supplied and dispatches on
the name; names with no image-level case (locations, elevation) are
no-ops at this level. -/

/-- One element of the filters tuple. -/
inductive QueryFilter where
  | locations (locs : List String)
  | elevation (payloadJson : String)
  | dayofweek (days : List Int)
  | hour (hours : List Int)
  | month (months : List Int)
  | species (scientificNames : List String)
  | years (yearStart yearEnd : Int)
  | startDate (dt : PyDateTime)
  | endDate (dt : PyDateTime)
deriving DecidableEq, Repr

/-- One species observation attached to an image. -/
structure SpeciesEntry where
  scientificName : String
deriving DecidableEq, Repr

/-- The raw timestamp field of a stored image: absent (no key or empty
string), present but unparseable (fromisoformat raises), or parsed. -/
inductive TsField where
  | absent
  | unparseable
  | parsed (dt : PyDateTime)
deriving DecidableEq, Repr

/-- An image record as consumed by the image-level filters. -/
structure Image where
  name : String
  timestamp : TsField
  species : List SpeciesEntry
deriving DecidableEq, Repr

/-- The timestamp handling at the top of the image loop: an absent
timestamp leaves the decorated timestamp none, a parse failure excludes
the image immediately (error), and a parsed value is normalized. -/
def image_dt_of (img : Image) : Except Unit (Option PyDateTime) :=
  match img.timestamp with
  | .absent => .ok none
  | .unparseable => .error ()
  | .parsed dt => .ok (some (normalize_image_dt dt))

/-- The payloads resolved once per query: the years bound uses the first
years filter encountered (the years_filter cache), and the startDate and
endDate bounds use the first filter of that name (get_filter_dt). -/
structure FilterCtx where
  yearsVal : Option (Int × Int)
  startDateVal : Option PyDateTime
  endDateVal : Option PyDateTime
deriving DecidableEq, Repr

/-- Builds the per-query filter context from the filters tuple: each
component is the payload of the first filter of the matching name. -/
def mkCtx (filters : List QueryFilter) : FilterCtx :=
  { yearsVal := filters.findSome? (fun f =>
      match f with
      | .years a b => some (a, b)
      | _ => none)
    startDateVal := filters.findSome? (fun f =>
      match f with
      | .startDate dt => some dt
      | _ => none)
    endDateVal := filters.findSome? (fun f =>
      match f with
      | .endDate dt => some dt
      | _ => none) }

/-- Whether one filter excludes the image, mirroring the match statement
of the image loop. Date-based filters exclude any image without a
decorated timestamp. The years case reads the cached bounds (falling
back to its own payload, as the cache is set on first evaluation); the
startDate and endDate cases read the bounds resolved by get_filter_dt,
which are present whenever such a filter exists. -/
def imageFilterFails (ctx : FilterCtx) (f : QueryFilter) (img : Image)
    (dtOpt : Option PyDateTime) : Bool :=
  match f with
  | .locations _ => false
  | .elevation _ => false
  | .dayofweek days =>
      match dtOpt with
      | none => true
      | some dt => !days.contains (pyWeekday dt)
  | .hour hours =>
      match dtOpt with
      | none => true
      | some dt => !hours.contains dt.hour
  | .month months =>
      match dtOpt with
      | none => true
      | some dt => !months.contains dt.month
  | .species names =>
      !img.species.any (fun s => names.contains s.scientificName)
  | .years ys ye =>
      let b := ctx.yearsVal.getD (ys, ye)
      match dtOpt with
      | none => true
      | some dt => !(decide (b.1 ≤ dt.year) && decide (dt.year ≤ b.2))
  | .startDate s =>
      let sv := ctx.startDateVal.getD s
      match dtOpt with
      | none => true
      | some dt => decide (pyDtKey dt < pyDtKey sv)
  | .endDate e =>
      let ev := ctx.endDateVal.getD e
      match dtOpt with
      | none => true
      | some dt => decide (pyDtKey dt > pyDtKey ev)

/-- The inner filter loop over one image: filters are visited in the
order of the supplied tuple, and the loop breaks at the first filter
that excludes the image, which is returned; none means the image
survived every filter. -/
def firstFailingFilter (ctx : FilterCtx) : List QueryFilter → Image →
    Option PyDateTime → Option QueryFilter
  | [], _, _ => none
  | f :: rest, img, dtOpt =>
      if imageFilterFails ctx f img dtOpt then some f
      else firstFailingFilter ctx rest img dtOpt

/-- Whether an image survives the image-level filters: its timestamp
must not fail to parse and no filter may exclude it. -/
def image_kept (filters : List QueryFilter) (img : Image) : Bool :=
  match image_dt_of img with
  | .error _ => false
  | .ok dtOpt => (firstFailingFilter (mkCtx filters) filters img dtOpt).isNone

/-- The fixed priority the specification assigns to the image-level
filters: dayofweek, hour, month, species, years, endDate, startDate;
filters without an image-level case come last. -/
def specFilterRank : QueryFilter → Nat
  | .dayofweek _ => 0
  | .hour _ => 1
  | .month _ => 2
  | .species _ => 3
  | .years _ _ => 4
  | .endDate _ => 5
  | .startDate _ => 6
  | .locations _ => 7
  | .elevation _ => 7

/-- Modelled from the spec: the supplied filters rearranged into the
fixed evaluation order the claim states (stable within each rank). -/
def fixedOrderArrange (filters : List QueryFilter) : List QueryFilter :=
  (List.range 8).flatMap (fun r => filters.filter (fun f => specFilterRank f == r))

/-- Modelled from the spec: the image filter evaluation as the claim
describes it, visiting the filters in the fixed order regardless of the
order in which they were supplied, short-circuiting at the first
failure. -/
def firstFailingFixedOrder (ctx : FilterCtx) (filters : List QueryFilter)
    (img : Image) (dtOpt : Option PyDateTime) : Option QueryFilter :=
  firstFailingFilter ctx (fixedOrderArrange filters) img dtOpt

/-! ### Permission filtering of loaded collections
(sparcd_collections.py, load_collections lines 120-150)

The admin argument is documented as a boolean but any value can arrive;
the code replaces it by False when it is not equal to True or False
under Python equality (where 1 equals True and 0 equals False), and the
admin branch then requires identity with True. The embedding carries a
small model of the Python values that can reach the parameter. -/

/-- A Python value reaching the admin parameter: a bool, an int or a
string. -/
inductive PyVal where
  | pybool (b : Bool)
  | pyint (n : Int)
  | pystr (s : String)
deriving DecidableEq, Repr

/-- Python equality over the modelled values: True equals 1 and False
equals 0; strings never equal bools or ints. -/
def pyEq : PyVal → PyVal → Bool
  | .pybool a, .pybool b => a == b
  | .pybool a, .pyint n => (if a then (1 : Int) else 0) == n
  | .pyint n, .pybool b => n == (if b then (1 : Int) else 0)
  | .pyint n, .pyint m => n == m
  | .pystr s, .pystr t => s == t
  | _, _ => false

/-- The test admin in [True, False] of the source. -/
def pyInTrueFalse (v : PyVal) : Bool :=
  pyEq v (.pybool true) || pyEq v (.pybool false)

/-- The test admin is True of the source: identity with the True
singleton, which only the bool True satisfies. -/
def pyIsTrue (v : PyVal) : Bool :=
  v == .pybool true

/-- One entry of the allPermissions list of a collection. The field is
none when the entry is falsy or lacks the usernameProperty key. -/
structure Permission where
  usernameProperty : Option String
deriving DecidableEq, Repr

/-- A loaded collection as seen by the permission filter. -/
structure Collection where
  coll_id : String
  allPermissions : List Permission
deriving DecidableEq, Repr

/-- The linear scan over allPermissions with early break: the first
entry whose usernameProperty equals the requesting user name. An empty
list (falsy in the source) finds nothing. -/
def findUserPerm (perms : List Permission) (userName : String) : Option Permission :=
  perms.find? (fun p => p.usernameProperty == some userName)

/-- A collection as returned by load_collections: decorated with the
permissions entry found for the requesting user (none when absent). -/
structure DecoratedColl where
  coll : Collection
  permissions : Option Permission
deriving DecidableEq, Repr

/-- The permission-filtering phase of load_collections: normalize admin
(replace it by False unless it equals True or False under Python
equality), decorate every collection with the first permission entry
matching the user, and keep a collection when admin is identical to True
or such an entry was found. -/
def load_collections_perms (adminRaw : PyVal) (userName : String)
    (colls : List Collection) : List DecoratedColl :=
  let admin := if !pyInTrueFalse adminRaw then PyVal.pybool false else adminRaw
  colls.filterMap (fun c =>
    let perm := findUserPerm c.allPermissions userName
    if pyIsTrue admin || perm.isSome then some ⟨c, perm⟩ else none)

/-! ### Helper lemmas -/

/-- When the acquire condition holds, lock_get returns the candidate and
stores it with the current time. -/
lemma lock_get_of_cond (row : Option LockRow) (now cand maxSec : Int)
    (h : lockAcquireCond row now maxSec = true) :
    lock_get row now cand maxSec = (some cand, some ⟨some cand, some now⟩) := by
  match row with
  | none => simp [lock_get, db_locks_update, db_locks_select_value]
  | some r =>
      simp only [lockAcquireCond] at h
      simp [lock_get, db_locks_update, db_locks_select_value, h]

/-- When the acquire condition fails, lock_get returns none and leaves
the row unchanged. -/
lemma lock_get_of_not_cond (row : Option LockRow) (now cand maxSec : Int)
    (h : lockAcquireCond row now maxSec = false) :
    lock_get row now cand maxSec = (none, row) := by
  match row with
  | none => simp [lockAcquireCond] at h
  | some r =>
      simp only [lockAcquireCond] at h
      simp [lock_get, db_locks_update, db_locks_select_value, h]

/-- C1: for every lock row state, time and maximum hold, lock_get runs a
conditional update that stores the candidate token and the current time
exactly when the stored token is NULL (or the row absent) or the stored
timestamp is older than maxHoldSec; it returns the candidate if and only
if the update changed a row and the value read back equals the
candidate, and in every other case it returns none with the row left
unchanged. -/
theorem lock_get_conditional_acquire (row : Option LockRow) (now cand maxSec : Int) :
    ((db_locks_update row now cand maxSec).1 > 0 ↔ lockAcquireCond row now maxSec = true)
  ∧ ((lock_get row now cand maxSec).1 = some cand ↔
       (db_locks_update row now cand maxSec).1 > 0 ∧
         db_locks_select_value (db_locks_update row now cand maxSec).2 = some cand)
  ∧ ((lock_get row now cand maxSec).1 = none ∨ (lock_get row now cand maxSec).1 = some cand)
  ∧ (lockAcquireCond row now maxSec = true →
       (lock_get row now cand maxSec).1 = some cand ∧
       (lock_get row now cand maxSec).2 = some ⟨some cand, some now⟩)
  ∧ (lockAcquireCond row now maxSec = false →
       (lock_get row now cand maxSec).1 = none ∧
       (lock_get row now cand maxSec).2 = row) := by
  refine ⟨?_, ?_, ?_, ?_, ?_⟩
  · match row with
    | none => simp [db_locks_update, lockAcquireCond]
    | some r =>
        by_cases h : lockUpdateCond r now maxSec <;>
          simp [db_locks_update, lockAcquireCond, h]
  · match row with
    | none => simp [db_locks_update, db_locks_select_value, lock_get]
    | some r =>
        by_cases h : lockUpdateCond r now maxSec <;>
          simp [db_locks_update, db_locks_select_value, lock_get, h]
  · by_cases h : lockAcquireCond row now maxSec
    · rw [lock_get_of_cond row now cand maxSec h]; right; rfl
    · rw [lock_get_of_not_cond row now cand maxSec (by simpa using h)]; left; rfl
  · intro h; rw [lock_get_of_cond row now cand maxSec h]; exact ⟨rfl, rfl⟩
  · intro h; rw [lock_get_of_not_cond row now cand maxSec h]; exact ⟨rfl, rfl⟩

/-- C4: a lock acquired at time t0 with maximum hold s and never
released is successfully stolen by a different caller at any time
strictly after t0 + s: the acquire returns the new candidate and stores
it, even though the stored token is non-null. -/
theorem lock_abandonment_steal (t0 s now tok cand : Int) (h : now > t0 + s) :
    (lock_get (some ⟨some tok, some t0⟩) now cand s).1 = some cand ∧
    (lock_get (some ⟨some tok, some t0⟩) now cand s).2 = some ⟨some cand, some now⟩ := by
  have hc : lockAcquireCond (some ⟨some tok, some t0⟩) now s = true := by
    simp [lockAcquireCond, lockUpdateCond]
    omega
  rw [lock_get_of_cond _ _ _ _ hc]
  exact ⟨rfl, rfl⟩

theorem lock_abandonment_steal_witness :
    (lock_get (some ⟨some 7, some 0⟩) 121 9 120).1 = some 9 ∧
    (lock_get (some ⟨some 7, some 0⟩) 121 9 120).2 = some ⟨some 9, some 121⟩ :=
  lock_abandonment_steal 0 120 121 7 9 (by decide)

/-- C5: releasing a lock clears the stored token and timestamp to NULL
exactly when the stored token equals the token passed by the caller;
when it differs the release is a no-op and the row is unchanged. -/
theorem lock_release_owner_only (r : LockRow) (v : Int) :
    (r.value = some v → lock_release (some r) v = some ⟨none, none⟩)
  ∧ (r.value ≠ some v → lock_release (some r) v = some r) := by
  constructor
  · intro h; simp [lock_release, h]
  · intro h; simp [lock_release, h]

theorem lock_release_owner_only_witness :
    lock_release (some ⟨some 5, some 3⟩) 5 = some ⟨none, none⟩ ∧
    lock_release (some ⟨some 5, some 3⟩) 6 = some ⟨some 5, some 3⟩ :=
  ⟨(lock_release_owner_only ⟨some 5, some 3⟩ 5).1 rfl,
   (lock_release_owner_only ⟨some 5, some 3⟩ 6).2 (by decide)⟩

/-- Characterization of the maximum of a list of integers. -/
lemma int_max?_spec (l : List Int) (m : Int) (h : l.max? = some m) :
    m ∈ l ∧ ∀ x ∈ l, x ≤ m := by
  have inst : Std.Antisymm (fun (a b : Int) => a ≤ b) := ⟨fun h1 h2 => le_antisymm h1 h2⟩
  rw [List.max?_eq_some_iff] at h
  · exact h
  · exact fun a => le_refl a
  · exact fun a b => max_choice a b
  · exact fun a b c => max_le_iff

/-- C2: a snapshot read returns cached data only when the row set is
non-empty and every row has elapsed age strictly below timeoutSec; an
empty set or a single stale row makes the whole read return none, and a
successful read always carries the full row set, never a proper
subset. Stated for get_all_collections and for get_uploads. -/
theorem snapshot_ttl_all_or_nothing (rows : List CollRow) (now timeoutSec : Int)
    (fetchedAts : List Int) (uploadRows : List String) :
    ((rows = [] ∨ ∃ r ∈ rows, now - r.fetchedAt ≥ timeoutSec) →
       get_all_collections rows now timeoutSec = .ok none)
  ∧ (∀ vals, get_all_collections rows now timeoutSec = .ok (some vals) →
       rows ≠ [] ∧ (∀ r ∈ rows, now - r.fetchedAt < timeoutSec) ∧
         loads_all rows = some vals)
  ∧ (get_uploads fetchedAts uploadRows now timeoutSec ≠ none ↔
       (fetchedAts ≠ [] ∧ ∀ ts ∈ fetchedAts, now - ts < timeoutSec))
  ∧ (∀ us, get_uploads fetchedAts uploadRows now timeoutSec = some us → us = uploadRows) := by
  refine ⟨?_, ?_, ?_, ?_⟩
  · rintro (h | ⟨r, hr, hstale⟩)
    · simp [get_all_collections, h]
    · have hne : rows.isEmpty = false := by
        cases rows with
        | nil => simp at hr
        | cons a l => simp
      have hany : rows.any (fun r => decide (now - r.fetchedAt ≥ timeoutSec)) = true := by
        simp only [List.any_eq_true, decide_eq_true_eq]
        exact ⟨r, hr, hstale⟩
      simp [get_all_collections, hne, hany]
  · intro vals h
    unfold get_all_collections at h
    by_cases hne : rows.isEmpty
    · simp [hne] at h
    · by_cases hany : rows.any (fun r => decide (now - r.fetchedAt ≥ timeoutSec))
      · simp [hne, hany] at h
      · refine ⟨by simpa using hne, ?_, ?_⟩
        · intro r hr
          simp only [List.any_eq_true, decide_eq_true_eq] at hany
          push_neg at hany
          exact hany r hr
        · simp only [hne, if_false, hany, if_false] at h
          cases hm : loads_all rows with
          | none => simp [hm] at h
          | some vs => simp [hm] at h; simp [hm, h]
  · constructor
    · intro h
      unfold get_uploads at h
      cases hm : (fetchedAts.map (fun ts => now - ts)).max? with
      | none => simp [hm] at h
      | some m =>
          have hmem := int_max?_spec _ m hm
          constructor
          · intro hnil
            rw [hnil] at hm
            simp at hm
          · intro ts hts
            simp only [hm] at h
            by_cases hlt : m ≥ timeoutSec
            · simp [hlt] at h
            · push_neg at hlt
              have : now - ts ≤ m := hmem.2 _ (List.mem_map_of_mem _ hts)
              omega
    · rintro ⟨hne, hfresh⟩
      unfold get_uploads
      cases hm : (fetchedAts.map (fun ts => now - ts)).max? with
      | none =>
          rw [List.max?_eq_none_iff] at hm
          simp only [List.map_eq_nil_iff] at hm
          exact absurd hm hne
      | some m =>
          have hmem := int_max?_spec _ m hm
          obtain ⟨ts, hts, hmts⟩ := List.mem_map.mp hmem.1
          have : m < timeoutSec := hmts ▸ hfresh ts hts
          simp [not_le.mpr this]
  · intro us h
    unfold get_uploads at h
    cases hm : (fetchedAts.map (fun ts => now - ts)).max? with
    | none => simp [hm] at h
    | some m =>
        simp only [hm] at h
        by_cases hlt : m ≥ timeoutSec
        · simp [hlt] at h
        · simp [hlt] at h; exact h.symm

/-- Decoding the whole row set fails exactly when some payload is
malformed. -/
lemma loads_all_eq_none_iff (rows : List CollRow) :
    loads_all rows = none ↔ ∃ r ∈ rows, r.json = JsonText.malformed := by
  induction rows with
  | nil => simp [loads_all]
  | cons a l ih =>
      cases hj : a.json with
      | valid v =>
          simp only [loads_all, json_loads, hj]
          cases hl : loads_all l with
          | none => simp [ih.mp hl, hj]
          | some vs =>
              simp only [List.exists_mem_cons_iff, hj]
              constructor
              · intro h; simp at h
              · rintro (h | h)
                · simp at h
                · exact absurd (ih.mpr h) (by simp [hl])
      | malformed =>
          simp [loads_all, json_loads, hj, List.exists_mem_cons_iff]

/-- C9 (amended): a non-empty, fresh snapshot row set containing a row
whose stored JSON payload fails to parse makes the read raise the parse
error to the caller instead of treating the row as absent. -/
theorem malformed_snapshot_raises (rows : List CollRow) (now timeoutSec : Int)
    (hne : rows ≠ []) (hfresh : ∀ r ∈ rows, now - r.fetchedAt < timeoutSec)
    (hbad : ∃ r ∈ rows, r.json = JsonText.malformed) :
    get_all_collections rows now timeoutSec
      = .error "Unable to parse stored collection JSON" := by
  have hempty : rows.isEmpty = false := by
    cases rows with
    | nil => exact absurd rfl hne
    | cons a l => simp
  have hany : rows.any (fun r => decide (now - r.fetchedAt ≥ timeoutSec)) = false := by
    simp only [List.any_eq_false, decide_eq_true_eq]
    intro r hr
    exact not_le.mpr (hfresh r hr)
  have hload : loads_all rows = none := (loads_all_eq_none_iff rows).mpr hbad
  simp [get_all_collections, hempty, hany, hload]

/-- C9 counterexample: a single fresh row with a malformed payload makes
get_all_collections raise, contradicting the claim that the row is
treated as absent and no error reaches the caller. -/
theorem malformed_snapshot_raises_cex :
    get_all_collections [⟨"c1", JsonText.malformed, 0⟩] 0 100
      = .error "Unable to parse stored collection JSON" := rfl

theorem malformed_snapshot_raises_witness :
    get_all_collections [⟨"c2", JsonText.malformed, 0⟩] 10 100
      = .error "Unable to parse stored collection JSON" :=
  malformed_snapshot_raises [⟨"c2", JsonText.malformed, 0⟩] 10 100 (by decide)
    (by intro r hr; simp at hr; simp [hr]) ⟨⟨"c2", JsonText.malformed, 0⟩, by simp⟩

/-- The sleep interval is nonnegative. -/
lemma interval_nonneg : 0 ≤ COLL_FETCH_WAIT_INTERVAL_SEC := by
  norm_num [COLL_FETCH_WAIT_INTERVAL_SEC, MAX_COLL_FETCH_WAIT_SEC, MAX_COLL_FETCH_TRIES]

/-- Closed form of the triangular sleep total. -/
lemma sleepSum_closed (r tries : Nat) :
    sleepSum tries r
      = ((r : ℚ) * (2 * tries + r + 1) / 2) * COLL_FETCH_WAIT_INTERVAL_SEC := by
  induction r generalizing tries with
  | zero => simp [sleepSum]
  | succ n ih =>
      rw [sleepSum, ih (tries + 1)]
      push_cast
      ring

/-- The number of polls grows by at most the remaining attempts. -/
lemma wait_go_npolls_le {α : Type} (poll : Nat → Option α) (r : Nat) :
    ∀ (tries : Nat) (slept : ℚ) (np : Nat),
      (wait_go poll r tries slept np).2.2 ≤ np + r := by
  induction r with
  | zero => intro tries slept np; simp [wait_go]
  | succ n ih =>
      intro tries slept np
      simp only [wait_go]
      cases poll (tries + 1) with
      | some v => show np + 1 ≤ np + (n + 1); omega
      | none =>
          simp only []
          calc (wait_go poll n (tries+1) (slept + ((tries+1 : Nat) : ℚ) * COLL_FETCH_WAIT_INTERVAL_SEC) (np+1)).2.2
              ≤ (np + 1) + n := ih (tries+1) _ (np+1)
            _ ≤ np + (n + 1) := by omega

/-- When every remaining poll comes back empty the loop runs all
attempts, sleeping the full triangular total. -/
lemma wait_go_all_none {α : Type} (poll : Nat → Option α) (r : Nat) :
    ∀ (tries : Nat) (slept : ℚ) (np : Nat),
      (∀ t, tries < t → t ≤ tries + r → poll t = none) →
      wait_go poll r tries slept np = (none, slept + sleepSum tries r, np + r) := by
  induction r with
  | zero => intro tries slept np _; simp [wait_go, sleepSum]
  | succ n ih =>
      intro tries slept np h
      have hp : poll (tries + 1) = none := h (tries + 1) (by omega) (by omega)
      simp only [wait_go, hp]
      rw [ih (tries + 1) _ (np + 1) (fun t h1 h2 => h t (by omega) (by omega))]
      rw [sleepSum]
      refine Prod.ext rfl (Prod.ext ?_ ?_)
      · show slept + _ + sleepSum (tries+1) n = slept + (_ + sleepSum (tries+1) n)
        ring
      · show np + 1 + n = np + (n + 1)
        omega

/-- When the first non-empty poll is at attempt t the loop returns its
value after t polls, having slept the triangular total through t. -/
lemma wait_go_hit {α : Type} (poll : Nat → Option α) (r : Nat) :
    ∀ (tries : Nat) (slept : ℚ) (np : Nat) (t : Nat) (v : α),
      tries < t → t ≤ tries + r → poll t = some v →
      (∀ s, tries < s → s < t → poll s = none) →
      wait_go poll r tries slept np
        = (some v, slept + sleepSum tries (t - tries), np + (t - tries)) := by
  induction r with
  | zero => intro tries slept np t v h1 h2 _ _; omega
  | succ n ih =>
      intro tries slept np t v h1 h2 hv hmin
      by_cases ht : t = tries + 1
      · subst ht
        simp only [wait_go, hv]
        have : tries + 1 - tries = 1 := by omega
        rw [this]
        refine Prod.ext rfl (Prod.ext ?_ ?_)
        · show slept + _ = slept + sleepSum tries 1
          rw [sleepSum, sleepSum]
          ring
        · show np + 1 = np + 1
          rfl
      · have hp : poll (tries + 1) = none := hmin (tries + 1) (by omega) (by omega)
        simp only [wait_go, hp]
        rw [ih (tries + 1) _ (np + 1) t v (by omega) (by omega) hv
            (fun s hs1 hs2 => hmin s (by omega) hs2)]
        have hsub : t - tries = (t - (tries + 1)) + 1 := by omega
        refine Prod.ext rfl (Prod.ext ?_ ?_)
        · show slept + _ + sleepSum (tries+1) (t - (tries+1)) = slept + sleepSum tries (t - tries)
          rw [hsub, sleepSum]
          ring
        · show np + 1 + (t - (tries + 1)) = np + (t - tries)
          omega

/-- The slept total never exceeds the full triangular total. -/
lemma wait_go_slept_le {α : Type} (poll : Nat → Option α) (r : Nat) :
    ∀ (tries : Nat) (slept : ℚ) (np : Nat),
      (wait_go poll r tries slept np).2.1 ≤ slept + sleepSum tries r := by
  induction r with
  | zero => intro tries slept np; simp [wait_go, sleepSum]
  | succ n ih =>
      intro tries slept np
      simp only [wait_go]
      cases poll (tries + 1) with
      | some v =>
          simp only []
          rw [sleepSum]
          have := sleepSum_closed n (tries + 1)
          have hnn : 0 ≤ sleepSum (tries + 1) n := by
            rw [this]
            apply mul_nonneg _ interval_nonneg
            positivity
          show slept + _ ≤ slept + (_ + sleepSum (tries+1) n)
          linarith
      | none =>
          simp only []
          calc (wait_go poll n (tries+1) _ (np+1)).2.1
              ≤ slept + ((tries+1 : Nat) : ℚ) * COLL_FETCH_WAIT_INTERVAL_SEC + sleepSum (tries+1) n := ih (tries+1) _ (np+1)
            _ = slept + sleepSum tries (n+1) := by rw [sleepSum]; ring

/-- The full triangular sleep total equals the wait budget. -/
lemma sleepSum_full : sleepSum 0 MAX_COLL_FETCH_TRIES = MAX_COLL_FETCH_WAIT_SEC := by
  rw [sleepSum_closed]
  norm_num [COLL_FETCH_WAIT_INTERVAL_SEC, MAX_COLL_FETCH_WAIT_SEC, MAX_COLL_FETCH_TRIES]

/-- C6: the losing caller polls the snapshot store at most 10 times,
sleeping attempt times the base interval before each poll, where the
base interval is the 5-minute budget divided by the triangular number
55, so the total sleep over all attempts is exactly 300 seconds; it
returns the snapshot at the first poll that produces one and returns
none when the budget is exhausted. -/
theorem collection_wait_schedule {α : Type} (poll : Nat → Option α) :
    (wait_for_collections poll).2.2 ≤ MAX_COLL_FETCH_TRIES
  ∧ (wait_for_collections poll).2.1 ≤ MAX_COLL_FETCH_WAIT_SEC
  ∧ COLL_FETCH_WAIT_INTERVAL_SEC = 60 / 11
  ∧ sleepSum 0 MAX_COLL_FETCH_TRIES = MAX_COLL_FETCH_WAIT_SEC
  ∧ ((∀ t, 1 ≤ t → t ≤ MAX_COLL_FETCH_TRIES → poll t = none) →
       wait_for_collections poll
         = (none, MAX_COLL_FETCH_WAIT_SEC, MAX_COLL_FETCH_TRIES))
  ∧ (∀ t v, 1 ≤ t → t ≤ MAX_COLL_FETCH_TRIES → poll t = some v →
       (∀ s, 1 ≤ s → s < t → poll s = none) →
       wait_for_collections poll = (some v, sleepSum 0 t, t)) := by
  refine ⟨?_, ?_, ?_, sleepSum_full, ?_, ?_⟩
  · have := wait_go_npolls_le poll MAX_COLL_FETCH_TRIES 0 0 0
    simpa [wait_for_collections] using this
  · have := wait_go_slept_le poll MAX_COLL_FETCH_TRIES 0 0 0
    rw [zero_add, sleepSum_full] at this
    simpa [wait_for_collections] using this
  · norm_num [COLL_FETCH_WAIT_INTERVAL_SEC, MAX_COLL_FETCH_WAIT_SEC, MAX_COLL_FETCH_TRIES]
  · intro h
    unfold wait_for_collections
    rw [wait_go_all_none poll MAX_COLL_FETCH_TRIES 0 0 0
        (fun t h1 h2 => h t (by omega) (by omega))]
    rw [zero_add, sleepSum_full, Nat.zero_add]
  · intro t v h1 h2 hv hmin
    unfold wait_for_collections
    rw [wait_go_hit poll MAX_COLL_FETCH_TRIES 0 0 0 t v (by omega) (by omega) hv
        (fun s hs1 hs2 => hmin s (by omega) hs2)]
    simp

theorem collection_wait_schedule_witness :
    wait_for_collections (fun t => if t = 3 then some 42 else none)
      = (some 42, sleepSum 0 3, 3) :=
  (collection_wait_schedule (fun t => if t = 3 then some 42 else none)).2.2.2.2.2 3 42
    (by omega) (by norm_num [MAX_COLL_FETCH_TRIES]) (by norm_num)
    (fun s hs1 hs2 => by simp; omega)

/-- The short-circuiting image filter loop returns the first failing
filter of the supplied list. -/
lemma firstFailingFilter_eq_find? (ctx : FilterCtx) (l : List QueryFilter)
    (img : Image) (dtOpt : Option PyDateTime) :
    firstFailingFilter ctx l img dtOpt
      = l.find? (fun f => imageFilterFails ctx f img dtOpt) := by
  induction l with
  | nil => rfl
  | cons f rest ih =>
      by_cases h : imageFilterFails ctx f img dtOpt
      · simp [firstFailingFilter, List.find?, h]
      · simp only [Bool.not_eq_true] at h
        simp [firstFailingFilter, List.find?, h, ih]

/-- Searching an appended list whose first part all fails the predicate
finds the head of the second part when it satisfies it. -/
lemma find?_append_first_hit {α : Type} (p : α → Bool) (l₁ l₂ : List α) (f : α)
    (hpass : ∀ g ∈ l₁, p g = false) (hfail : p f = true) :
    (l₁ ++ f :: l₂).find? p = some f := by
  induction l₁ with
  | nil => simp [List.find?, hfail]
  | cons g gs ih =>
      have hg : p g = false := hpass g (by simp)
      simp only [List.cons_append, List.find?, hg]
      exact ih (fun x hx => hpass x (by simp [hx]))

/-- C7 (amended): the image-level filters are evaluated in the order in
which the caller supplied them, not in a fixed order, short-circuiting
at the first filter the image fails; an image survives exactly when no
supplied filter excludes it under the bounds resolved once per query
from the first years, startDate and endDate payloads. -/
theorem image_filters_supplied_order (filters : List QueryFilter) (img : Image)
    (dtOpt : Option PyDateTime) :
    firstFailingFilter (mkCtx filters) filters img dtOpt
        = filters.find? (fun f => imageFilterFails (mkCtx filters) f img dtOpt)
  ∧ (firstFailingFilter (mkCtx filters) filters img dtOpt = none
       ↔ ∀ f ∈ filters, imageFilterFails (mkCtx filters) f img dtOpt = false)
  ∧ (∀ (l₁ l₂ : List QueryFilter) (f : QueryFilter), filters = l₁ ++ f :: l₂ →
       (∀ g ∈ l₁, imageFilterFails (mkCtx filters) g img dtOpt = false) →
       imageFilterFails (mkCtx filters) f img dtOpt = true →
       firstFailingFilter (mkCtx filters) filters img dtOpt = some f) := by
  refine ⟨firstFailingFilter_eq_find? _ _ _ _, ?_, ?_⟩
  · rw [firstFailingFilter_eq_find? _ _ _ _, List.find?_eq_none]
    constructor
    · intro h f hf
      simpa using h f hf
    · intro h f hf
      simp [h f hf]
  · intro l₁ l₂ f hsplit hpass hfail
    subst hsplit
    rw [firstFailingFilter_eq_find? _ _ _ _]
    exact find?_append_first_hit _ l₁ l₂ f hpass hfail

/-- C7 counterexample: with the supplied order species then dayofweek
and an image failing both, the evaluation stops at the species filter,
while the fixed order stated by the claim would stop at the dayofweek
filter; the two evaluation orders are observably different. -/
theorem image_filter_order_cex :
    firstFailingFilter
        (mkCtx [.species ["s1"], .dayofweek [0]]) [.species ["s1"], .dayofweek [0]]
        ⟨"i", .parsed ⟨2020, 1, 7, 0, 0, 0, none⟩, [⟨"s2"⟩]⟩
        (some (normalize_image_dt ⟨2020, 1, 7, 0, 0, 0, none⟩))
      ≠ firstFailingFixedOrder
        (mkCtx [.species ["s1"], .dayofweek [0]]) [.species ["s1"], .dayofweek [0]]
        ⟨"i", .parsed ⟨2020, 1, 7, 0, 0, 0, none⟩, [⟨"s2"⟩]⟩
        (some (normalize_image_dt ⟨2020, 1, 7, 0, 0, 0, none⟩))
  ∧ firstFailingFilter
        (mkCtx [.species ["s1"], .dayofweek [0]]) [.species ["s1"], .dayofweek [0]]
        ⟨"i", .parsed ⟨2020, 1, 7, 0, 0, 0, none⟩, [⟨"s2"⟩]⟩
        (some (normalize_image_dt ⟨2020, 1, 7, 0, 0, 0, none⟩))
      = some (.species ["s1"])
  ∧ firstFailingFixedOrder
        (mkCtx [.species ["s1"], .dayofweek [0]]) [.species ["s1"], .dayofweek [0]]
        ⟨"i", .parsed ⟨2020, 1, 7, 0, 0, 0, none⟩, [⟨"s2"⟩]⟩
        (some (normalize_image_dt ⟨2020, 1, 7, 0, 0, 0, none⟩))
      = some (.dayofweek [0]) := by
  refine ⟨?_, by decide, by decide⟩
  decide

/-- C8: the years filter keeps an image exactly when its wall-clock year
lies between yearStart and yearEnd, both inclusive; the startDate and
endDate filters keep it exactly when its instant is at least the start
bound and at most the end bound, both inclusive; and the boundary
examples of the claim evaluate as stated. -/
theorem date_filters_inclusive (ys ye : Int) (dt s e : PyDateTime) (img : Image)
    (_hdt : dt.tz.isSome) (_hs : s.tz.isSome) (_he : e.tz.isSome) :
    (imageFilterFails (mkCtx [.years ys ye]) (.years ys ye) img (some dt) = false
       ↔ (ys ≤ dt.year ∧ dt.year ≤ ye))
  ∧ (imageFilterFails (mkCtx [.startDate s]) (.startDate s) img (some dt) = false
       ↔ pyDtKey s ≤ pyDtKey dt)
  ∧ (imageFilterFails (mkCtx [.endDate e]) (.endDate e) img (some dt) = false
       ↔ pyDtKey dt ≤ pyDtKey e)
  ∧ image_kept [.years 2020 2021] ⟨"img", .parsed ⟨2020, 1, 1, 0, 0, 0, none⟩, []⟩ = true
  ∧ image_kept [.years 2020 2021] ⟨"img", .parsed ⟨2021, 12, 31, 23, 59, 59, none⟩, []⟩ = true
  ∧ image_kept [.years 2020 2021] ⟨"img", .parsed ⟨2019, 12, 31, 23, 59, 59, none⟩, []⟩ = false
  ∧ image_kept [.years 2020 2021] ⟨"img", .parsed ⟨2022, 1, 1, 0, 0, 0, none⟩, []⟩ = false := by
  refine ⟨?_, ?_, ?_, by decide, by decide, by decide, by decide⟩
  · simp [imageFilterFails, mkCtx, List.findSome?]
  · simp [imageFilterFails, mkCtx, List.findSome?]
  · simp [imageFilterFails, mkCtx, List.findSome?]

theorem date_filters_inclusive_witness :
    imageFilterFails (mkCtx [.years 2020 2021]) (.years 2020 2021)
        ⟨"i", .absent, []⟩ (some ⟨2020, 6, 15, 12, 0, 0, some 0⟩) = false :=
  ((date_filters_inclusive 2020 2021 ⟨2020, 6, 15, 12, 0, 0, some 0⟩
      ⟨2020, 1, 1, 0, 0, 0, some 0⟩ ⟨2021, 1, 1, 0, 0, 0, some 0⟩ ⟨"i", .absent, []⟩
      (by decide) (by decide) (by decide)).1).mpr (by decide)

/-- An admin value other than the bool True never satisfies the identity
test after normalization. -/
lemma pyIsTrue_norm_false (adminRaw : PyVal) (h : adminRaw ≠ PyVal.pybool true) :
    pyIsTrue (if !pyInTrueFalse adminRaw then PyVal.pybool false else adminRaw) = false := by
  cases adminRaw with
  | pybool b =>
      cases b with
      | true => exact absurd rfl h
      | false => rfl
  | pyint n =>
      by_cases hn : pyInTrueFalse (PyVal.pyint n)
      · simp [hn, pyIsTrue]
      · simp [hn, pyIsTrue]
  | pystr s =>
      simp [pyInTrueFalse, pyEq, pyIsTrue]

/-- C10: when admin is anything other than the boolean True, every
returned collection carries a permissions entry whose usernameProperty
equals the requesting user name and collections lacking one are
omitted; when admin is the boolean True every loaded collection is
returned. -/
theorem load_collections_admin_filter (adminRaw : PyVal) (userName : String)
    (colls : List Collection) (h : adminRaw ≠ PyVal.pybool true) :
    load_collections_perms adminRaw userName colls
        = (colls.filter (fun c => (findUserPerm c.allPermissions userName).isSome)).map
            (fun c => ⟨c, findUserPerm c.allPermissions userName⟩)
  ∧ (∀ d ∈ load_collections_perms adminRaw userName colls,
       ∃ p, d.permissions = some p ∧ p.usernameProperty = some userName)
  ∧ load_collections_perms (PyVal.pybool true) userName colls
        = colls.map (fun c => ⟨c, findUserPerm c.allPermissions userName⟩) := by
  have hnorm := pyIsTrue_norm_false adminRaw h
  refine ⟨?_, ?_, ?_⟩
  · simp only [load_collections_perms, hnorm, Bool.false_or]
    induction colls with
    | nil => rfl
    | cons c cs ih =>
        by_cases hc : (findUserPerm c.allPermissions userName).isSome
        · simp [List.filterMap, List.filter, hc, ih]
        · simp [List.filterMap, List.filter, hc, ih]
  · intro d hd
    simp only [load_collections_perms, hnorm, Bool.false_or] at hd
    obtain ⟨c, hc, hkeep⟩ := List.mem_filterMap.mp hd
    by_cases hsome : (findUserPerm c.allPermissions userName).isSome
    · rw [if_pos hsome] at hkeep
      obtain ⟨p, hp⟩ := Option.isSome_iff_exists.mp hsome
      have hd2 := Option.some.inj hkeep
      subst hd2
      refine ⟨p, hp, ?_⟩
      have := List.find?_some hp
      simpa using this
    · rw [if_neg hsome] at hkeep
      exact absurd hkeep (by simp)
  · have htrue : pyIsTrue (if !pyInTrueFalse (PyVal.pybool true) then PyVal.pybool false
        else PyVal.pybool true) = true := rfl
    simp only [load_collections_perms, htrue, Bool.true_or]
    induction colls with
    | nil => rfl
    | cons c cs ih =>
        simp only [if_true] at ih
        simp only [List.filterMap_cons, if_true, List.map_cons]
        rw [ih]

theorem load_collections_admin_filter_witness :
    load_collections_perms (PyVal.pyint 1) "alice"
        [⟨"a", [⟨some "alice"⟩]⟩, ⟨"b", [⟨some "bob"⟩]⟩]
      = [⟨⟨"a", [⟨some "alice"⟩]⟩, some ⟨some "alice"⟩⟩] :=
  (load_collections_admin_filter (PyVal.pyint 1) "alice"
      [⟨"a", [⟨some "alice"⟩]⟩, ⟨"b", [⟨some "bob"⟩]⟩] (by decide)).1.trans (by decide)

/-- C1 witness: the theorem applied to an absent lock row. -/
theorem lock_get_conditional_acquire_witness :
    (lock_get none 5 9 120).1 = some 9 ∧ (lock_get none 5 9 120).2 = some ⟨some 9, some 5⟩ :=
  (lock_get_conditional_acquire none 5 9 120).2.2.2.1 rfl

/-- C2 witness: the theorem applied to an empty collection row set and to
one fresh upload timeout row. -/
theorem snapshot_ttl_all_or_nothing_witness :
    get_all_collections ([] : List CollRow) 0 100 = .ok none ∧
    get_uploads [0] ["u"] 50 100 ≠ none :=
  ⟨(snapshot_ttl_all_or_nothing [] 0 100 [0] ["u"]).1 (Or.inl rfl),
   (snapshot_ttl_all_or_nothing [] 0 100 [0] ["u"]).2.2.1.mpr
     ⟨by decide, by intro ts hts; simp at hts; omega⟩⟩

/-- C7 witness: the amended theorem applied to a single failing
dayofweek filter. -/
theorem image_filters_supplied_order_witness :
    firstFailingFilter (mkCtx [.dayofweek [0]]) [.dayofweek [0]]
        ⟨"i", .absent, []⟩ none = some (.dayofweek [0]) :=
  (image_filters_supplied_order [.dayofweek [0]] ⟨"i", .absent, []⟩ none).2.2
    [] [] (.dayofweek [0]) rfl (by intro g hg; simp at hg) (by decide)
